import Mathlib

/-!
# Verification of the Upside Funding dashboard core (`models/db_connector.py`)

Shallow embedding of the roster/analytics pipeline of `db_connector.py`:

* Python floats are modelled as exact rationals (`ℚ`); `round(x, n)` is
  modelled as exact decimal round-half-even (`roundTo`).
* SQL `NULL` and Python `None` are modelled as `Option.none`; the numeric
  columns (`Account_Size`, `Margin_Equity`, `Daily_Equity`,
  `Challenges_Balance`) arrive from the database as numerics or NULL, so
  `_to_float` is modelled on `Option ℚ` (a numeric parses to itself,
  `None` raises `TypeError` and yields `None`).
* Python truthiness on an optional float (`x or y`, `if x`) is modelled by
  `pyOr` / `truthy`: `None` and `0.0` are falsy.
* The pandas dataframe of deals is modelled as a `List Deal`; boolean-mask
  filtering is `List.filter`, `.sum()` is `List.sum`, `.min()`/`.max()` on a
  series is a fold with `min`/`max`, `.iloc[0]` is `List.head?`.  The Python
  `set` of completed position ids has unspecified iteration order; here the
  ids are enumerated in first-occurrence order (the claims under study are
  order-insensitive or explicitly about permutations).
* pandas `groupby('symbol')` enumerates groups; each per-symbol statistic is
  a function of the whole position list, so the enumeration order only
  affects tie order in the final expectancy sort, which no claim depends on;
  symbols are enumerated in first-occurrence order.
* The `JSON_ARRAYAGG` payout column is modelled per the wire format as an
  optional (NULL/empty string is falsy) parse outcome
  (`Except String (List UpsEntry)`): a parse failure models the
  `json.loads` exception caught by the bare `except`.
-/

set_option linter.unusedVariables false

-- ── Rounding: Python `round(x, d)` as exact decimal round-half-even ──────────

def roundHalfEven (q : ℚ) : ℤ :=
  let n : ℤ := ⌊q⌋
  let f : ℚ := q - (n : ℚ)
  if f < 1/2 then n
  else if 1/2 < f then n + 1
  else if n % 2 = 0 then n else n + 1

def roundTo (d : ℕ) (q : ℚ) : ℚ :=
  ((roundHalfEven (q * 10 ^ d) : ℤ) : ℚ) / 10 ^ d

-- ── Numeric coercion helpers (`_to_float`, Python `or` / truthiness) ─────────

def to_float : Option ℚ → Option ℚ
  | none => none
  | some q => if q = 0 then none else some q

def pyOr : Option ℚ → Option ℚ → Option ℚ
  | some q, b => if q = 0 then b else some q
  | none, b => b

def pyOrZero : Option ℚ → ℚ
  | some q => if q = 0 then 0 else q
  | none => 0

def truthy : Option ℚ → Bool
  | some q => q != 0
  | none => false

-- ── `_extract_category_amount` ───────────────────────────────────────────────

def digitSpan : List Char → Option (List Char)
  | [] => none
  | c :: t => if c.isDigit then some (c :: t.takeWhile Char.isDigit) else digitSpan t

def natOfDigits (cs : List Char) : ℕ :=
  cs.foldl (fun a c => 10 * a + (c.toNat - 48)) 0

def notDollarComma (c : Char) : Bool := !(c == '$' || c == ',')

def extract_category_amount : Option String → Option ℚ
  | none => none
  | some s =>
    if s = "" then none
    else
      match digitSpan (s.toList.filter notDollarComma) with
      | some ds => some ((natOfDigits ds : ℚ))
      | none => none

-- ── SQL phase classification (`ROSTER_QUERY` CASE expression) ────────────────

def startsWithChars : List Char → List Char → Bool
  | [], _ => true
  | _ :: _, [] => false
  | p :: ps, c :: cs => p == c && startsWithChars ps cs

def containsChars (pat : List Char) : List Char → Bool
  | [] => startsWithChars pat []
  | c :: cs => startsWithChars pat (c :: cs) || containsChars pat cs

def phaseNumAt (cs : List Char) : Option (List Char) :=
  if startsWithChars "Phase ".toList cs then
    if ((cs.drop 6).takeWhile Char.isDigit).isEmpty then none
    else some ("Phase ".toList ++ (cs.drop 6).takeWhile Char.isDigit)
  else none

def findPhaseNum : List Char → Option (List Char)
  | [] => none
  | c :: cs =>
    match phaseNumAt (c :: cs) with
    | some r => some r
    | none => findPhaseNum cs

def HOUSE_ACCOUNT_EMAIL : String := "analytics@theupsidefunding.com"

def phase_of_title : Option String → Option String
  | none => some "UNKNOWN"
  | some t =>
    if containsChars "1-Step".toList t.toList then some "1-Step"
    else if containsChars "Phase".toList t.toList then
      (findPhaseNum t.toList).map (fun cs => String.mk cs)
    else if containsChars "Funded".toList t.toList then some "Funded"
    else if containsChars "2Step_No".toList t.toList then some "Phase 1"
    else some "UNKNOWN"

-- ── `_process_rows` ──────────────────────────────────────────────────────────

structure RawRow where
  login : ℕ
  title : Option String
  category : Option String
  Account_Size : Option ℚ
  Margin_Equity : Option ℚ
  Daily_Equity : Option ℚ
  Challenges_Balance : Option ℚ
  Phase : Option String
  email : Option String
  first_name : Option String
  last_name : Option String
  status : Option String
deriving DecidableEq

structure ProcessedRow where
  login : ℕ
  category : Option String
  phase : Option String
  first_name : Option String
  last_name : Option String
  email : Option String
  starting_balance : ℚ
  current_equity : ℚ
  change : ℚ
  gain_loss_pct : ℚ
  pot_liability : ℚ
  payout_pct : ℚ
  status : Option String
deriving DecidableEq

def lookupD (pm : List (ℕ × ℚ)) (l : ℕ) (d : ℚ) : ℚ := (pm.lookup l).getD d

def starting_balance_opt (row : RawRow) : Option ℚ :=
  pyOr (to_float row.Account_Size) (extract_category_amount row.category)

def current_equity_opt (row : RawRow) : Option ℚ :=
  pyOr (pyOr (to_float row.Margin_Equity) (to_float row.Daily_Equity))
    (to_float row.Challenges_Balance)

def process_row (pm : List (ℕ × ℚ)) (row : RawRow) : Option ProcessedRow :=
  if startsWithChars "TEST NEW".toList (row.title.getD "").toList then none
  else
    let phase := if row.email = some HOUSE_ACCOUNT_EMAIL then some "House Account" else row.Phase
    let sb := starting_balance_opt row
    let ce := current_equity_opt row
    let change : ℚ := if truthy ce && truthy sb then ce.getD 0 - sb.getD 0 else 0
    let gain_loss_pct : ℚ := if truthy sb then roundTo 3 (change / sb.getD 0 * 100) else 0
    let payout_pct : ℚ := lookupD pm row.login (85/100)
    let pot_liability : ℚ := if phase = some "Funded" ∧ 0 < change then change * payout_pct else 0
    some {
      login := row.login
      category := row.category
      phase := phase
      first_name := row.first_name
      last_name := row.last_name
      email := row.email
      starting_balance := pyOrZero sb
      current_equity := pyOrZero ce
      change := change
      gain_loss_pct := gain_loss_pct
      pot_liability := pot_liability
      payout_pct := payout_pct * 100
      status := row.status }

def process_rows (rows : List RawRow) (pm : List (ℕ × ℚ)) : List ProcessedRow :=
  rows.filterMap (process_row pm)

-- ── `get_payout_percentages` ─────────────────────────────────────────────────

structure UpsEntry where
  title : Option String
  value : Option Bool
deriving DecidableEq

structure PayoutRaw where
  number : ℕ
  upsale_values : Option (Except String (List UpsEntry))

def titleTruthy : Option String → Bool
  | some s => s != ""
  | none => false

def row_payout (r : PayoutRaw) : ℚ :=
  match r.upsale_values with
  | none => 85/100
  | some (Except.error _) => 85/100
  | some (Except.ok entries) =>
    if entries.any (fun e => titleTruthy e.title && e.value.isSome) then 95/100 else 85/100

def get_payout_percentages (res : Except String (List PayoutRaw)) : List (ℕ × ℚ) :=
  match res with
  | Except.error _ => []
  | Except.ok rows => rows.map (fun r => (r.number, row_payout r))

-- ── `get_roster_summary` ─────────────────────────────────────────────────────

structure RosterSummary where
  total : ℕ
  funded : ℕ
  phase2 : ℕ
  one_step : ℕ
  phase1 : ℕ
  total_liability : ℚ
  total_equity : ℚ
  weighted_avg_gain_loss : ℚ

def get_roster_summary (roster : List ProcessedRow) : RosterSummary :=
  let total_equity := (roster.map (fun r => r.current_equity)).sum
  let weighted : ℚ :=
    if 0 < total_equity then
      (roster.map (fun r => r.gain_loss_pct * r.current_equity)).sum / total_equity
    else 0
  { total := roster.length
    funded := (roster.filter (fun r => r.phase == some "Funded")).length
    phase2 := (roster.filter (fun r => r.phase == some "Phase 2")).length
    one_step := (roster.filter (fun r => r.phase == some "1-Step")).length
    phase1 := (roster.filter (fun r => r.phase == some "Phase 1")).length
    total_liability :=
      (((roster.filter (fun r => r.phase == some "Funded")).map (fun r => r.pot_liability))).sum
    total_equity := total_equity
    weighted_avg_gain_loss := roundTo 3 weighted }

-- ── `_process_deals_to_positions` ────────────────────────────────────────────

structure Deal where
  position_id : ℕ
  entry_exit : String
  action : String
  symbol : String
  price : ℚ
  volume : ℚ
  net_profit : ℚ
  time : ℤ
deriving DecidableEq

structure Position where
  position_id : ℕ
  symbol : String
  action : String
  entry_time : Option ℤ
  exit_time : Option ℤ
  entry_price : ℚ
  exit_price : ℚ
  volume : ℚ
  profit_loss : ℚ
  hold_time_minutes : ℚ
deriving DecidableEq

def openDeals (l : List Deal) : List Deal := l.filter (fun d => d.entry_exit == "OPEN")

def closeDeals (l : List Deal) : List Deal := l.filter (fun d => d.entry_exit == "CLOSE")

def completedIds (l : List Deal) : List ℕ :=
  (((openDeals l).map (fun d => d.position_id)).dedup).filter
    (fun pid => ((closeDeals l).map (fun d => d.position_id)).contains pid)

def posOpens (l : List Deal) (pid : ℕ) : List Deal :=
  (openDeals l).filter (fun d => d.position_id == pid)

def posCloses (l : List Deal) (pid : ℕ) : List Deal :=
  (closeDeals l).filter (fun d => d.position_id == pid)

def omin (x : ℤ) : Option ℤ → Option ℤ
  | none => some x
  | some y => some (min x y)

def omax (x : ℤ) : Option ℤ → Option ℤ
  | none => some x
  | some y => some (max x y)

def minTime (ts : List ℤ) : Option ℤ := ts.foldr omin none

def maxTime (ts : List ℤ) : Option ℤ := ts.foldr omax none

def mkPosition (pid : ℕ) (os cs : List Deal) : Position :=
  let total_volume := (os.map (fun d => d.volume)).sum
  let entry_price :=
    if 0 < total_volume then (os.map (fun d => d.price * d.volume)).sum / total_volume else 0
  let exit_price :=
    if 0 < total_volume then (cs.map (fun d => d.price * d.volume)).sum / total_volume else 0
  let profit_loss := (os.map (fun d => d.net_profit)).sum + (cs.map (fun d => d.net_profit)).sum
  let entry_time := minTime (os.map (fun d => d.time))
  let exit_time := maxTime (cs.map (fun d => d.time))
  let hold : ℚ :=
    match entry_time, exit_time with
    | some et, some xt => if et < xt then ((xt - et : ℤ) : ℚ) / 60 else 0
    | _, _ => 0
  { position_id := pid
    symbol := (os.head?.map (fun d => d.symbol)).getD ""
    action := (os.head?.map (fun d => d.action)).getD ""
    entry_time := entry_time
    exit_time := exit_time
    entry_price := entry_price
    exit_price := exit_price
    volume := total_volume
    profit_loss := profit_loss
    hold_time_minutes := hold }

def process_deals_to_positions (l : List Deal) : List Position :=
  (completedIds l).filterMap (fun pid =>
    if (posOpens l pid).isEmpty || (posCloses l pid).isEmpty then none
    else some (mkPosition pid (posOpens l pid) (posCloses l pid)))

-- ── `_calculate_analytics_metrics` (overall and per-symbol statistics) ───────

def winsOf (ps : List Position) : List Position :=
  ps.filter (fun p => decide (0 < p.profit_loss))

def lossesOf (ps : List Position) : List Position :=
  ps.filter (fun p => decide (p.profit_loss < 0))

def meanOf (qs : List ℚ) : ℚ := if qs.isEmpty then 0 else qs.sum / (qs.length : ℚ)

def win_rate (ps : List Position) : ℚ :=
  if 0 < ps.length then ((winsOf ps).length : ℚ) / (ps.length : ℚ) * 100 else 0

def loss_rate (ps : List Position) : ℚ :=
  if 0 < ps.length then ((lossesOf ps).length : ℚ) / (ps.length : ℚ) * 100 else 0

def avg_win (ps : List Position) : ℚ := meanOf ((winsOf ps).map (fun p => p.profit_loss))

def avg_loss (ps : List Position) : ℚ := meanOf ((lossesOf ps).map (fun p => p.profit_loss))

def trade_expectancy_raw (ps : List Position) : ℚ :=
  win_rate ps / 100 * avg_win ps - loss_rate ps / 100 * |avg_loss ps|

structure SymbolStat where
  symbol : String
  total_trades : ℕ
  win_rate : ℚ
  total_pnl : ℚ
  avg_win : ℚ
  avg_loss : ℚ
  expectancy : ℚ
deriving DecidableEq

def symbolSub (ps : List Position) (s : String) : List Position :=
  ps.filter (fun p => p.symbol == s)

def symbol_stat (ps : List Position) (s : String) : SymbolStat :=
  let sub := symbolSub ps s
  let swr := win_rate sub
  let s_avg_win := avg_win sub
  let s_avg_loss := avg_loss sub
  { symbol := s
    total_trades := sub.length
    win_rate := roundTo 1 swr
    total_pnl := roundTo 2 ((sub.map (fun p => p.profit_loss)).sum)
    avg_win := roundTo 2 s_avg_win
    avg_loss := roundTo 2 s_avg_loss
    expectancy := roundTo 2 (swr / 100 * s_avg_win - (100 - swr) / 100 * |s_avg_loss|) }

def insertByExp (a : SymbolStat) : List SymbolStat → List SymbolStat
  | [] => [a]
  | b :: t => if b.expectancy ≤ a.expectancy then a :: b :: t else b :: insertByExp a t

def sortByExpDesc : List SymbolStat → List SymbolStat
  | [] => []
  | a :: t => insertByExp a (sortByExpDesc t)

def symbol_breakdown (ps : List Position) : List SymbolStat :=
  sortByExpDesc (((ps.map (fun p => p.symbol)).dedup).map (symbol_stat ps))

-- ── Shared helper lemmas ─────────────────────────────────────────────────────

lemma pyOrZero_getD (a : Option ℚ) : pyOrZero a = a.getD 0 := by
  cases a with
  | none => rfl
  | some q =>
    by_cases h : q = 0
    · simp [pyOrZero, h]
    · simp [pyOrZero, h]

lemma process_row_fields (pm : List (ℕ × ℚ)) (row : RawRow) (pr : ProcessedRow)
    (h : process_row pm row = some pr) :
    pr.login = row.login ∧
    pr.phase = (if row.email = some HOUSE_ACCOUNT_EMAIL then some "House Account"
      else row.Phase) ∧
    pr.starting_balance = pyOrZero (starting_balance_opt row) ∧
    pr.current_equity = pyOrZero (current_equity_opt row) ∧
    pr.change = (if truthy (current_equity_opt row) && truthy (starting_balance_opt row) then
      (current_equity_opt row).getD 0 - (starting_balance_opt row).getD 0 else 0) ∧
    pr.gain_loss_pct = (if truthy (starting_balance_opt row) then
      roundTo 3 (pr.change / (starting_balance_opt row).getD 0 * 100) else 0) ∧
    pr.pot_liability = (if pr.phase = some "Funded" ∧ 0 < pr.change then
      pr.change * lookupD pm row.login (85/100) else 0) ∧
    pr.payout_pct = lookupD pm row.login (85/100) * 100 := by
  unfold process_row at h
  split at h
  · exact absurd h (by simp)
  · rw [Option.some_inj] at h
    subst h
    exact ⟨rfl, rfl, rfl, rfl, rfl, rfl, rfl, rfl⟩

lemma digitSpan_eq_none (cs : List Char) (h : ∀ c ∈ cs, c.isDigit = false) :
    digitSpan cs = none := by
  induction cs with
  | nil => rfl
  | cons c t ih =>
    have hc : c.isDigit = false := h c (by simp)
    simp only [digitSpan, hc, Bool.false_eq_true, if_false]
    exact ih (fun x hx => h x (by simp [hx]))

lemma to_float_pos (q : ℚ) (h : q ≠ 0) : to_float (some q) = some q := by
  simp [to_float, h]

lemma extract_eval (s : String) (ds : List Char) (hs : ¬ s = "")
    (h : digitSpan (s.toList.filter notDollarComma) = some ds) :
    extract_category_amount (some s) = some ((natOfDigits ds : ℕ) : ℚ) := by
  simp only [extract_category_amount, if_neg hs, h]

lemma extract_eval_none (s : String) (hs : ¬ s = "")
    (h : digitSpan (s.toList.filter notDollarComma) = none) :
    extract_category_amount (some s) = none := by
  simp only [extract_category_amount, if_neg hs, h]

-- ── Claim C8 ─────────────────────────────────────────────────────────────────

/-- Claim C8 (confirmed): the starting-balance fallback chain of `_process_rows`
uses the numeric `Account_Size` when it is present and non-zero, otherwise falls
back to the amount extracted from the category label by `_extract_category_amount`
(strip `$` and `,`, take the first embedded digit run); `"$ 100,000"` yields
`100000.0`, `"250,000 Live"` yields `250000.0`, a label with no digits yields no
value, and a value that is missing or parses to exactly zero is treated as absent. -/
theorem claim_c8_starting_balance_chain :
    (∀ (row : RawRow) (q : ℚ), row.Account_Size = some q → q ≠ 0 →
      starting_balance_opt row = some q) ∧
    (∀ row : RawRow, row.Account_Size = none ∨ row.Account_Size = some 0 →
      starting_balance_opt row = extract_category_amount row.category) ∧
    extract_category_amount (some "$ 100,000") = some 100000 ∧
    extract_category_amount (some "250,000 Live") = some 250000 ∧
    (∀ s : String, (∀ c ∈ s.toList, c.isDigit = false) →
      extract_category_amount (some s) = none) := by
  refine ⟨?_, ?_, ?_, ?_, ?_⟩
  · intro row q hq hne
    simp [starting_balance_opt, hq, to_float, hne, pyOr]
  · intro row hcase
    rcases hcase with h | h <;> simp [starting_balance_opt, h, to_float, pyOr]
  · rw [extract_eval "$ 100,000" ['1', '0', '0', '0', '0', '0'] (by decide) (by decide)]
    have h2 : natOfDigits ['1', '0', '0', '0', '0', '0'] = 100000 := by decide
    rw [h2]; norm_num
  · rw [extract_eval "250,000 Live" ['2', '5', '0', '0', '0', '0'] (by decide) (by decide)]
    have h2 : natOfDigits ['2', '5', '0', '0', '0', '0'] = 250000 := by decide
    rw [h2]; norm_num
  · intro s hs
    by_cases hemp : s = ""
    · simp [extract_category_amount, hemp]
    · refine extract_eval_none s hemp (digitSpan_eq_none _ (fun c hc => ?_))
      exact hs c (List.mem_of_mem_filter hc)

/-- Witness for C8 at concrete inputs. -/
theorem claim_c8_witness :
    starting_balance_opt ⟨1, none, none, some 5, none, none, none, none, none, none, none, none⟩ =
      some 5 ∧
    starting_balance_opt
      ⟨1, none, some "$ 100,000", none, none, none, none, none, none, none, none, none⟩ =
      some 100000 ∧
    extract_category_amount (some "no digits here") = none := by
  refine ⟨claim_c8_starting_balance_chain.1 _ 5 rfl (by norm_num), ?_, ?_⟩
  · rw [claim_c8_starting_balance_chain.2.1 _ (Or.inl rfl)]
    exact claim_c8_starting_balance_chain.2.2.1
  · exact claim_c8_starting_balance_chain.2.2.2.2 "no digits here" (by decide)

-- ── Claim C10 ────────────────────────────────────────────────────────────────

/-- Claim C10 (confirmed): in every row produced by `_process_rows` the
`starting_balance` and `current_equity` fields are numbers, never null: the output
applies `or 0` to the fallback-chain value, so a chain that resolves to no value
yields `0` (the embedding types the two output fields as `ℚ` precisely because the
code's `or 0` always produces a float). -/
theorem claim_c10_defaults_to_zero :
    ∀ (pm : List (ℕ × ℚ)) (row : RawRow) (pr : ProcessedRow),
      process_row pm row = some pr →
      pr.starting_balance = (starting_balance_opt row).getD 0 ∧
      pr.current_equity = (current_equity_opt row).getD 0 ∧
      (starting_balance_opt row = none → pr.starting_balance = 0) ∧
      (current_equity_opt row = none → pr.current_equity = 0) := by
  intro pm row pr h
  obtain ⟨-, -, hsb, hce, -⟩ := process_row_fields pm row pr h
  rw [hsb, hce, pyOrZero_getD, pyOrZero_getD]
  refine ⟨rfl, rfl, fun h0 => ?_, fun h0 => ?_⟩
  · rw [h0]; rfl
  · rw [h0]; rfl

/-- Witness for C10: a raw row with no balance or equity data produces 0 in
both output fields. -/
theorem claim_c10_witness :
    process_row [] ⟨1, none, none, none, none, none, none, none, none, none, none, none⟩ =
      some ⟨1, none, none, none, none, none, 0, 0, 0, 0, 0, 85, none⟩ ∧
    (0 : ℚ) = (starting_balance_opt
      ⟨1, none, none, none, none, none, none, none, none, none, none, none⟩).getD 0 := by
  have hpr : process_row []
      ⟨1, none, none, none, none, none, none, none, none, none, none, none⟩ =
      some ⟨1, none, none, none, none, none, 0, 0, 0, 0, 0, 85, none⟩ := by
    norm_num [process_row, starting_balance_opt, current_equity_opt, to_float, pyOr,
      pyOrZero, truthy, lookupD, HOUSE_ACCOUNT_EMAIL, extract_category_amount]
    decide
  exact ⟨hpr, (claim_c10_defaults_to_zero []
    ⟨1, none, none, none, none, none, none, none, none, none, none, none⟩
    ⟨1, none, none, none, none, none, 0, 0, 0, 0, 0, 85, none⟩ hpr).1.symm⟩

-- ── Claim C3 ─────────────────────────────────────────────────────────────────

lemma lookupD_cases (pm : List (ℕ × ℚ)) (l : ℕ) (d : ℚ) :
    lookupD pm l d = d ∨ ∃ e ∈ pm, lookupD pm l d = e.2 := by
  unfold lookupD
  cases h : List.lookup l pm with
  | none => exact Or.inl rfl
  | some v =>
    refine Or.inr ?_
    rw [List.lookup_eq_some_iff] at h
    obtain ⟨l₁, l₂, rfl, -⟩ := h
    exact ⟨(l, v), by simp, rfl⟩

/-- Claim C3 (confirmed): for every processed roster row (with payout-map values
in the resolver's range `{0.85, 0.95}`), `pot_liability` is non-negative, it is
positive only when `phase = Funded` and `change > 0`, in which case it equals
`change` times the account's payout fraction, and it is `0` otherwise. -/
theorem claim_c3_pot_liability :
    ∀ pm : List (ℕ × ℚ), (∀ e ∈ pm, e.2 = 85/100 ∨ e.2 = 95/100) →
    ∀ (rows : List RawRow) (pr : ProcessedRow), pr ∈ process_rows rows pm →
      0 ≤ pr.pot_liability ∧
      (0 < pr.pot_liability → pr.phase = some "Funded" ∧ 0 < pr.change) ∧
      (pr.phase = some "Funded" ∧ 0 < pr.change →
        pr.pot_liability = pr.change * lookupD pm pr.login (85/100)) ∧
      (¬(pr.phase = some "Funded" ∧ 0 < pr.change) → pr.pot_liability = 0) := by
  intro pm hpm rows pr hmem
  rw [process_rows, List.mem_filterMap] at hmem
  obtain ⟨row, -, hrow⟩ := hmem
  obtain ⟨hlogin, -, -, -, -, -, hpot, -⟩ := process_row_fields pm row pr hrow
  have hpos : 0 < lookupD pm row.login (85/100) := by
    rcases lookupD_cases pm row.login (85/100) with h | ⟨e, he, h⟩
    · rw [h]; norm_num
    · rcases hpm e he with h2 | h2 <;> rw [h, h2] <;> norm_num
  rw [hlogin]
  by_cases hP : pr.phase = some "Funded" ∧ 0 < pr.change
  · rw [if_pos hP] at hpot
    refine ⟨?_, fun _ => hP, fun _ => hpot, fun hn => absurd hP hn⟩
    rw [hpot]
    exact le_of_lt (mul_pos hP.2 hpos)
  · rw [if_neg hP] at hpot
    refine ⟨le_of_eq hpot.symm, fun hgt => ?_, fun hP' => absurd hP' hP, fun _ => hpot⟩
    rw [hpot] at hgt
    exact absurd hgt (lt_irrefl 0)

/-- Witness for C3: a funded account with positive change and a 0.95 payout. -/
theorem claim_c3_witness :
    (∀ e ∈ [((1:ℕ), (95:ℚ)/100)], e.2 = 85/100 ∨ e.2 = 95/100) ∧
    (⟨1, none, some "Funded", none, none, none, 100, 150, 50, 50, 95/2, 95, none⟩ :
      ProcessedRow) ∈
      process_rows
        [⟨1, none, none, some 100, some 150, none, none, some "Funded", none, none, none, none⟩]
        [(1, 95/100)] ∧
    (0:ℚ) ≤ (⟨1, none, some "Funded", none, none, none, 100, 150, 50, 50, 95/2, 95, none⟩ :
      ProcessedRow).pot_liability := by
  have hmem : (⟨1, none, some "Funded", none, none, none, 100, 150, 50, 50, 95/2, 95, none⟩ :
      ProcessedRow) ∈
      process_rows
        [⟨1, none, none, some 100, some 150, none, none, some "Funded", none, none, none, none⟩]
        [(1, 95/100)] := by
    norm_num [process_rows, process_row, starting_balance_opt, current_equity_opt, to_float,
      pyOr, pyOrZero, truthy, lookupD, HOUSE_ACCOUNT_EMAIL, extract_category_amount,
      startsWithChars, roundTo, roundHalfEven]
    decide
  exact ⟨by norm_num, hmem,
    (claim_c3_pot_liability [(1, 95/100)] (by norm_num) _ _ hmem).1⟩

-- ── Claim C5 ─────────────────────────────────────────────────────────────────

lemma titleTruthy_iff (t : Option String) : titleTruthy t = true ↔ ∃ s, t = some s ∧ s ≠ "" := by
  cases t with
  | none => simp [titleTruthy]
  | some s => simp [titleTruthy]

/-- Claim C5 (corrected): `get_payout_percentages` maps an account to `0.95`
exactly when its aggregated upsell JSON parses and contains an entry whose title
is truthy (non-null AND non-empty) and whose value is non-null; otherwise `0.85`.
(The frozen claim required only a non-null title; the code tests Python
truthiness of the title, so a present-but-empty title keeps `0.85`.) -/
theorem claim_c5_amended :
    ∀ r : PayoutRaw,
      (row_payout r = 95/100 ↔
        ∃ entries, r.upsale_values = some (Except.ok entries) ∧
          ∃ e ∈ entries, (∃ s, e.title = some s ∧ s ≠ "") ∧ e.value.isSome = true) ∧
      (row_payout r = 95/100 ∨ row_payout r = 85/100) ∧
      (∀ rows : List PayoutRaw, r ∈ rows →
        (r.number, row_payout r) ∈ get_payout_percentages (Except.ok rows)) := by
  intro r
  have h85 : (85:ℚ)/100 ≠ 95/100 := by norm_num
  refine ⟨?_, ?_, ?_⟩
  · cases hu : r.upsale_values with
    | none =>
      simp only [row_payout, hu]
      constructor
      · intro h; exact absurd h h85
      · rintro ⟨es, hes, -⟩; cases hes
    | some exc =>
      cases exc with
      | error msg =>
        simp only [row_payout, hu]
        constructor
        · intro h; exact absurd h h85
        · rintro ⟨es, hes, -⟩; cases hes
      | ok entries =>
        simp only [row_payout, hu]
        by_cases hany : entries.any (fun e => titleTruthy e.title && e.value.isSome) = true
        · rw [if_pos hany]
          simp only [List.any_eq_true, Bool.and_eq_true] at hany
          obtain ⟨e, he, ht, hv⟩ := hany
          exact ⟨fun _ => ⟨entries, rfl, e, he, (titleTruthy_iff e.title).mp ht, hv⟩,
            fun _ => rfl⟩
        · rw [if_neg hany]
          constructor
          · intro h; exact absurd h h85
          · rintro ⟨es, hes, e, he, ht, hv⟩
            rw [Option.some_inj, Except.ok.injEq] at hes
            subst hes
            exact absurd (List.any_eq_true.mpr
              ⟨e, he, by rw [Bool.and_eq_true]
                         exact ⟨(titleTruthy_iff e.title).mpr ht, hv⟩⟩) hany
  · cases hu : r.upsale_values with
    | none => simp only [row_payout, hu]; exact Or.inr trivial
    | some exc =>
      cases exc with
      | error msg => simp only [row_payout, hu]; exact Or.inr trivial
      | ok entries =>
        simp only [row_payout, hu]
        by_cases hany : entries.any (fun e => titleTruthy e.title && e.value.isSome) = true
        · rw [if_pos hany]; exact Or.inl rfl
        · rw [if_neg hany]; exact Or.inr rfl
  · intro rows hr
    exact List.mem_map_of_mem _ hr

/-- Witness for C5: a non-empty title with a non-null value yields 0.95. -/
theorem claim_c5_witness :
    row_payout ⟨3, some (Except.ok [⟨some "VIP", some true⟩])⟩ = 95/100 ∧
    ((3:ℕ), row_payout ⟨3, some (Except.ok [⟨some "VIP", some true⟩])⟩) ∈
      get_payout_percentages (Except.ok [⟨3, some (Except.ok [⟨some "VIP", some true⟩])⟩]) := by
  constructor
  · exact (claim_c5_amended _).1.mpr
      ⟨[⟨some "VIP", some true⟩], rfl, ⟨some "VIP", some true⟩, by simp,
        ⟨"VIP", rfl, by decide⟩, rfl⟩
  · exact (claim_c5_amended _).2.2 _ (List.mem_singleton.mpr rfl)

/-- Counterexample for C5 as frozen: an entry with a non-null but EMPTY title and
a non-null value is mapped to 0.85 by the code, while the claim demands 0.95. -/
theorem claim_c5_counterexample :
    row_payout ⟨7, some (Except.ok [⟨some "", some true⟩])⟩ = 85/100 ∧
    (some "" : Option String) ≠ none ∧ (some true : Option Bool) ≠ none ∧
    (85:ℚ)/100 ≠ 95/100 := by
  refine ⟨?_, by simp, by simp, by norm_num⟩
  simp [row_payout, titleTruthy]

-- ── Claim C6 ─────────────────────────────────────────────────────────────────

/-- Claim C6 (corrected): on a query failure `get_payout_percentages` returns the
empty mapping (so all accounts default to 0.85 downstream); on a per-account
parse failure it does NOT return an empty mapping — the failing account stays in
the returned mapping with the default 0.85 (the bare `except: pass` keeps the
default and the loop continues). Either way no error propagates. -/
theorem claim_c6_amended :
    (∀ msg : String, get_payout_percentages (Except.error msg) = []) ∧
    (∀ (rows : List PayoutRaw) (r : PayoutRaw) (msg : String), r ∈ rows →
      r.upsale_values = some (Except.error msg) →
      (r.number, (85:ℚ)/100) ∈ get_payout_percentages (Except.ok rows)) := by
  constructor
  · intro msg; rfl
  · intro rows r msg hr hu
    have hrp : row_payout r = 85/100 := by simp [row_payout, hu]
    show (r.number, (85:ℚ)/100) ∈
      List.map (fun x : PayoutRaw => (x.number, row_payout x)) rows
    refine List.mem_map.mpr ⟨r, hr, ?_⟩
    show (r.number, row_payout r) = (r.number, (85:ℚ)/100)
    rw [hrp]

/-- Witness for C6 at concrete inputs. -/
theorem claim_c6_witness :
    get_payout_percentages (Except.error "db down") = [] ∧
    ((1:ℕ), (85:ℚ)/100) ∈
      get_payout_percentages (Except.ok [⟨1, some (Except.error "oops")⟩]) := by
  exact ⟨claim_c6_amended.1 "db down",
    claim_c6_amended.2 [⟨1, some (Except.error "oops")⟩] ⟨1, some (Except.error "oops")⟩
      "oops" (List.mem_singleton.mpr rfl) rfl⟩

/-- Counterexample for C6 as frozen: a parse failure does not yield an empty
mapping — the account is kept, mapped to the 0.85 default. -/
theorem claim_c6_counterexample :
    get_payout_percentages (Except.ok [⟨1, some (Except.error "bad json")⟩]) =
      [(1, 85/100)] ∧
    ([((1:ℕ), (85:ℚ)/100)] : List (ℕ × ℚ)) ≠ [] := by
  exact ⟨by simp [get_payout_percentages, row_payout], by simp⟩

-- ── Claim C7 ─────────────────────────────────────────────────────────────────

/-- Claim C7 (corrected): `get_roster_summary` returns
`weighted_avg_gain_loss = round₃(Σ(gain_loss_pct × current_equity) / Σ(current_equity))`
over every row whenever the total equity is POSITIVE; when the total equity is
zero OR NEGATIVE the result is 0 (the code guards with `total_equity > 0`, so a
negative total also short-circuits to 0, not only a zero total as the frozen
claim implies). -/
theorem claim_c7_weighted_avg :
    ∀ roster : List ProcessedRow,
      (0 < (roster.map (fun r => r.current_equity)).sum →
        (get_roster_summary roster).weighted_avg_gain_loss =
          roundTo 3 ((roster.map (fun r => r.gain_loss_pct * r.current_equity)).sum /
            (roster.map (fun r => r.current_equity)).sum)) ∧
      ((roster.map (fun r => r.current_equity)).sum ≤ 0 →
        (get_roster_summary roster).weighted_avg_gain_loss = 0) := by
  intro roster
  constructor
  · intro h
    simp only [get_roster_summary, if_pos h]
  · intro h
    have h' : ¬ 0 < (roster.map (fun r => r.current_equity)).sum := not_lt.mpr h
    simp only [get_roster_summary, if_neg h']
    norm_num [roundTo, roundHalfEven]

/-- Witness for C7 on a roster with positive total equity. -/
theorem claim_c7_witness :
    (0:ℚ) <
      (([⟨5, none, none, none, none, none, 100, 100, 0, 10, 0, 85, none⟩] :
        List ProcessedRow).map (fun r => r.current_equity)).sum ∧
    (get_roster_summary
        [⟨5, none, none, none, none, none, 100, 100, 0, 10, 0, 85, none⟩]).weighted_avg_gain_loss =
      roundTo 3
        ((([⟨5, none, none, none, none, none, 100, 100, 0, 10, 0, 85, none⟩] :
          List ProcessedRow).map (fun r => r.gain_loss_pct * r.current_equity)).sum /
          (([⟨5, none, none, none, none, none, 100, 100, 0, 10, 0, 85, none⟩] :
          List ProcessedRow).map (fun r => r.current_equity)).sum) := by
  exact ⟨by norm_num, (claim_c7_weighted_avg _).1 (by norm_num)⟩

/-- Counterexample for C7 as frozen: with a single row of negative equity the
total equity is negative (not zero), the claimed formula evaluates to 10, but the
code returns 0. -/
theorem claim_c7_counterexample :
    (get_roster_summary
        [⟨5, none, none, none, none, none, 100, -100, -200, 10, 0, 85, none⟩]).weighted_avg_gain_loss =
      0 ∧
    roundTo 3
      ((([⟨5, none, none, none, none, none, 100, -100, -200, 10, 0, 85, none⟩] :
        List ProcessedRow).map (fun r => r.gain_loss_pct * r.current_equity)).sum /
        (([⟨5, none, none, none, none, none, 100, -100, -200, 10, 0, 85, none⟩] :
        List ProcessedRow).map (fun r => r.current_equity)).sum) = 10 ∧
    (0:ℚ) ≠ 10 := by
  refine ⟨?_, ?_, by norm_num⟩
  · norm_num [get_roster_summary, roundTo, roundHalfEven]
  · norm_num [roundTo, roundHalfEven]

-- ── Claim C2 ─────────────────────────────────────────────────────────────────

lemma phaseNumAt_shape (cs : List Char) (r : List Char) (h : phaseNumAt cs = some r) :
    ∃ ds, ds ≠ [] ∧ (∀ c ∈ ds, c.isDigit = true) ∧ r = "Phase ".toList ++ ds := by
  unfold phaseNumAt at h
  by_cases hsw : startsWithChars "Phase ".toList cs = true
  · rw [if_pos hsw] at h
    by_cases hemp : ((cs.drop 6).takeWhile Char.isDigit).isEmpty = true
    · rw [if_pos hemp] at h
      cases h
    · rw [if_neg hemp] at h
      rw [Option.some_inj] at h
      refine ⟨(cs.drop 6).takeWhile Char.isDigit, ?_, ?_, h.symm⟩
      · intro hnil
        rw [hnil] at hemp
        exact hemp rfl
      · intro c hc
        exact List.mem_takeWhile_imp hc
  · rw [if_neg hsw] at h
    cases h

lemma findPhaseNum_shape (cs : List Char) (r : List Char) (h : findPhaseNum cs = some r) :
    ∃ ds, ds ≠ [] ∧ (∀ c ∈ ds, c.isDigit = true) ∧ r = "Phase ".toList ++ ds := by
  induction cs with
  | nil => cases h
  | cons c t ih =>
    rw [findPhaseNum] at h
    cases hp : phaseNumAt (c :: t) with
    | some r' =>
      rw [hp] at h
      rw [Option.some_inj] at h
      subst h
      exact phaseNumAt_shape _ _ hp
    | none =>
      rw [hp] at h
      exact ih h

/-- Claim C2 (corrected): for a row of the roster pipeline (whose raw `Phase`
column is the SQL CASE classification of the title), the processed phase is one
of `House Account`, `1-Step`, `Funded`, `Phase 1`, `Phase 2`, `UNKNOWN`, OR — for
titles matching the `Phase` branch — the string `"Phase "` followed by an
arbitrary digit run (e.g. `Phase 3`, outside the claimed closed set), or SQL NULL
when the title contains `Phase` but no `Phase <digits>` substring.  The frozen
claim's six-value closed enumeration does not hold for every input title. -/
theorem claim_c2_amended :
    ∀ (pm : List (ℕ × ℚ)) (row : RawRow) (pr : ProcessedRow),
      process_row pm row = some pr →
      row.Phase = phase_of_title row.title →
      (pr.phase = some "House Account" ∨ pr.phase = some "1-Step" ∨
        pr.phase = some "Funded" ∨ pr.phase = some "Phase 1" ∨ pr.phase = some "Phase 2" ∨
        pr.phase = some "UNKNOWN" ∨ pr.phase = none ∨
        ∃ ds : List Char, ds ≠ [] ∧ (∀ c ∈ ds, c.isDigit = true) ∧
          pr.phase = some (String.mk ("Phase ".toList ++ ds))) := by
  intro pm row pr hrow hphase
  obtain ⟨-, hph, -⟩ := process_row_fields pm row pr hrow
  by_cases hh : row.email = some HOUSE_ACCOUNT_EMAIL
  · rw [hph, if_pos hh]
    exact Or.inl rfl
  · rw [hph, if_neg hh, hphase]
    cases ht : row.title with
    | none =>
      rw [phase_of_title]
      exact Or.inr (Or.inr (Or.inr (Or.inr (Or.inr (Or.inl rfl)))))
    | some t =>
      rw [phase_of_title]
      by_cases h1 : containsChars "1-Step".toList t.toList = true
      · rw [if_pos h1]
        exact Or.inr (Or.inl rfl)
      · rw [if_neg h1]
        by_cases h2 : containsChars "Phase".toList t.toList = true
        · rw [if_pos h2]
          cases hf : findPhaseNum t.toList with
          | none =>
            exact Or.inr (Or.inr (Or.inr (Or.inr (Or.inr (Or.inr (Or.inl rfl))))))
          | some r =>
            obtain ⟨ds, hne, hdig, hr⟩ := findPhaseNum_shape _ _ hf
            subst hr
            exact Or.inr (Or.inr (Or.inr (Or.inr (Or.inr (Or.inr (Or.inr
              ⟨ds, hne, hdig, rfl⟩))))))
        · rw [if_neg h2]
          by_cases h3 : containsChars "Funded".toList t.toList = true
          · rw [if_pos h3]
            exact Or.inr (Or.inr (Or.inl rfl))
          · rw [if_neg h3]
            by_cases h4 : containsChars "2Step_No".toList t.toList = true
            · rw [if_pos h4]
              exact Or.inr (Or.inr (Or.inr (Or.inl rfl)))
            · rw [if_neg h4]
              exact Or.inr (Or.inr (Or.inr (Or.inr (Or.inr (Or.inl rfl)))))

/-- Witness for C2 at a concrete pipeline row whose title classifies as Funded. -/
theorem claim_c2_witness :
    process_row []
      ⟨2, some "Funded 100k", none, none, none, none, none, some "Funded", none, none, none,
        none⟩ =
      some ⟨2, none, some "Funded", none, none, none, 0, 0, 0, 0, 0, 85, none⟩ ∧
    (some "Funded" : Option String) = phase_of_title (some "Funded 100k") ∧
    ((some "Funded" : Option String) = some "House Account" ∨
      (some "Funded" : Option String) = some "1-Step" ∨
      (some "Funded" : Option String) = some "Funded" ∨
      (some "Funded" : Option String) = some "Phase 1" ∨
      (some "Funded" : Option String) = some "Phase 2" ∨
      (some "Funded" : Option String) = some "UNKNOWN" ∨
      (some "Funded" : Option String) = none ∨
      ∃ ds : List Char, ds ≠ [] ∧ (∀ c ∈ ds, c.isDigit = true) ∧
        (some "Funded" : Option String) = some (String.mk ("Phase ".toList ++ ds))) := by
  have h1 : process_row []
      ⟨2, some "Funded 100k", none, none, none, none, none, some "Funded", none, none, none,
        none⟩ =
      some ⟨2, none, some "Funded", none, none, none, 0, 0, 0, 0, 0, 85, none⟩ := by
    unfold process_row
    rw [if_neg (by decide)]
    norm_num [starting_balance_opt, current_equity_opt, to_float, pyOr, pyOrZero, truthy,
      lookupD, HOUSE_ACCOUNT_EMAIL, extract_category_amount]
    exact fun h => absurd h (by decide)
  have h2 : (some "Funded" : Option String) = phase_of_title (some "Funded 100k") := by decide
  exact ⟨h1, h2, claim_c2_amended [] _ _ h1 h2⟩

/-- Counterexample for C2 as frozen: the title `"Phase 3"` classifies to phase
`Phase 3`, which is none of the six claimed values. -/
theorem claim_c2_counterexample :
    process_row []
      ⟨1, some "Phase 3", none, none, none, none, none, some "Phase 3", none, none, none,
        none⟩ =
      some ⟨1, none, some "Phase 3", none, none, none, 0, 0, 0, 0, 0, 85, none⟩ ∧
    phase_of_title (some "Phase 3") = some "Phase 3" ∧
    (some "Phase 3" : Option String) ≠ some "House Account" ∧
    (some "Phase 3" : Option String) ≠ some "Funded" ∧
    (some "Phase 3" : Option String) ≠ some "Phase 2" ∧
    (some "Phase 3" : Option String) ≠ some "1-Step" ∧
    (some "Phase 3" : Option String) ≠ some "Phase 1" ∧
    (some "Phase 3" : Option String) ≠ some "UNKNOWN" := by
  refine ⟨?_, by decide, by decide, by decide, by decide, by decide, by decide, by decide⟩
  unfold process_row
  rw [if_neg (by decide)]
  norm_num [starting_balance_opt, current_equity_opt, to_float, pyOr, pyOrZero, truthy,
    lookupD, HOUSE_ACCOUNT_EMAIL, extract_category_amount]
  exact fun h => absurd h (by decide)

-- ── Claim C1 ─────────────────────────────────────────────────────────────────

/-- Claim C1 (corrected): for every reconstructed position, `entry_price` is the
volume-weighted average of the open-side deal prices (weights and divisor both
from the open side), but `exit_price` is the close-side weighted price sum
divided by the TOTAL OPEN-SIDE volume, not by the close side's own volume (the
two agree exactly when the close-side volumes sum to the open-side total, as in
the spec's example); `volume` is the sum of open-side volumes.  On the spec's
example (two opens: volume 1 @ 100, volume 1 @ 102; one close: volume 2 @ 105)
the result is `entry_price = 101`, `exit_price = 105`, `volume = 2`. -/
theorem claim_c1_amended :
    (∀ (pid : ℕ) (os cs : List Deal), 0 < (os.map (fun d => d.volume)).sum →
      (mkPosition pid os cs).entry_price =
        (os.map (fun d => d.price * d.volume)).sum / (os.map (fun d => d.volume)).sum ∧
      (mkPosition pid os cs).exit_price =
        (cs.map (fun d => d.price * d.volume)).sum / (os.map (fun d => d.volume)).sum ∧
      (mkPosition pid os cs).volume = (os.map (fun d => d.volume)).sum) ∧
    process_deals_to_positions
      [⟨1, "OPEN", "BUY", "EURUSD", 100, 1, 0, 10⟩,
       ⟨1, "OPEN", "BUY", "EURUSD", 102, 1, 0, 20⟩,
       ⟨1, "CLOSE", "SELL", "EURUSD", 105, 2, 0, 30⟩] =
      [⟨1, "EURUSD", "BUY", some 10, some 30, 101, 105, 2, 0, 1/3⟩] := by
  constructor
  · intro pid os cs h
    refine ⟨?_, ?_, rfl⟩ <;> simp [mkPosition, h]
  · norm_num [process_deals_to_positions, completedIds, posOpens, posCloses, openDeals,
      closeDeals, mkPosition, minTime, maxTime, omin, omax, List.filter, List.dedup,
      List.filterMap]

/-- Witness for C1's volume-weighting formulas at a concrete position. -/
theorem claim_c1_witness :
    (0:ℚ) <
      (([⟨1, "OPEN", "BUY", "X", 100, 2, 0, 0⟩] : List Deal).map (fun d => d.volume)).sum ∧
    (mkPosition 1 [⟨1, "OPEN", "BUY", "X", 100, 2, 0, 0⟩] []).entry_price =
      (([⟨1, "OPEN", "BUY", "X", 100, 2, 0, 0⟩] : List Deal).map
        (fun d => d.price * d.volume)).sum /
      (([⟨1, "OPEN", "BUY", "X", 100, 2, 0, 0⟩] : List Deal).map (fun d => d.volume)).sum := by
  exact ⟨by norm_num, (claim_c1_amended.1 1 _ [] (by norm_num)).1⟩

/-- Counterexample for C1 as frozen: with close-side volume 1 @ 105 (open side
total 2), the code's `exit_price` is `105/2 = 52.5`, while the close side's own
volume-weighted average is `105`. -/
theorem claim_c1_counterexample :
    process_deals_to_positions
      [⟨1, "OPEN", "BUY", "EURUSD", 100, 1, 0, 10⟩,
       ⟨1, "OPEN", "BUY", "EURUSD", 102, 1, 0, 20⟩,
       ⟨1, "CLOSE", "SELL", "EURUSD", 105, 1, 0, 30⟩] =
      [⟨1, "EURUSD", "BUY", some 10, some 30, 101, 105/2, 2, 0, 1/3⟩] ∧
    ((105:ℚ) * 1) / 1 = 105 ∧
    (105:ℚ)/2 ≠ 105 := by
  refine ⟨?_, by norm_num, by norm_num⟩
  norm_num [process_deals_to_positions, completedIds, posOpens, posCloses, openDeals,
    closeDeals, mkPosition, minTime, maxTime, omin, omax, List.filter, List.dedup,
    List.filterMap]

-- ── Claim C4 ─────────────────────────────────────────────────────────────────

lemma mem_insertByExp (a x : SymbolStat) (l : List SymbolStat) :
    x ∈ insertByExp a l → x = a ∨ x ∈ l := by
  induction l with
  | nil =>
    intro h
    exact Or.inl (List.mem_singleton.mp h)
  | cons b t ih =>
    intro h
    rw [insertByExp] at h
    by_cases hc : b.expectancy ≤ a.expectancy
    · rw [if_pos hc] at h
      rcases List.mem_cons.mp h with h | h
      · exact Or.inl h
      · exact Or.inr h
    · rw [if_neg hc] at h
      rcases List.mem_cons.mp h with h | h
      · exact Or.inr (h ▸ List.mem_cons_self b t)
      · rcases ih h with h' | h'
        · exact Or.inl h'
        · exact Or.inr (List.mem_cons_of_mem b h')

lemma sorted_insertByExp (a : SymbolStat) (l : List SymbolStat)
    (h : List.Sorted (fun x y : SymbolStat => y.expectancy ≤ x.expectancy) l) :
    List.Sorted (fun x y : SymbolStat => y.expectancy ≤ x.expectancy) (insertByExp a l) := by
  induction l with
  | nil => simp [insertByExp]
  | cons b t ih =>
    rw [List.sorted_cons] at h
    rw [insertByExp]
    by_cases hc : b.expectancy ≤ a.expectancy
    · rw [if_pos hc, List.sorted_cons]
      refine ⟨fun x hx => ?_, List.sorted_cons.mpr h⟩
      rcases List.mem_cons.mp hx with rfl | hx
      · exact hc
      · exact le_trans (h.1 x hx) hc
    · rw [if_neg hc, List.sorted_cons]
      refine ⟨fun x hx => ?_, ih h.2⟩
      rcases mem_insertByExp a x t hx with rfl | hx
      · exact le_of_not_le hc
      · exact h.1 x hx

lemma sorted_sortByExpDesc (l : List SymbolStat) :
    List.Sorted (fun x y : SymbolStat => y.expectancy ≤ x.expectancy) (sortByExpDesc l) := by
  induction l with
  | nil => simp [sortByExpDesc]
  | cons a t ih =>
    rw [sortByExpDesc]
    exact sorted_insertByExp a _ ih

lemma wins_losses_length (ps : List Position) (h : ∀ p ∈ ps, p.profit_loss ≠ 0) :
    (winsOf ps).length + (lossesOf ps).length = ps.length := by
  induction ps with
  | nil => rfl
  | cons p t ih =>
    have hp : p.profit_loss ≠ 0 := h p (List.mem_cons_self p t)
    have iht := ih (fun q hq => h q (List.mem_cons_of_mem p hq))
    rcases hp.lt_or_lt with hlt | hgt
    · have hw : winsOf (p :: t) = winsOf t := by
        simp only [winsOf, List.filter_cons]
        rw [if_neg (by simp only [decide_eq_true_eq, not_lt]; exact le_of_lt hlt)]
      have hl : lossesOf (p :: t) = p :: lossesOf t := by
        simp only [lossesOf, List.filter_cons]
        rw [if_pos (by simp only [decide_eq_true_eq]; exact hlt)]
      rw [hw, hl, List.length_cons, List.length_cons]
      omega
    · have hw : winsOf (p :: t) = p :: winsOf t := by
        simp only [winsOf, List.filter_cons]
        rw [if_pos (by simp only [decide_eq_true_eq]; exact hgt)]
      have hl : lossesOf (p :: t) = lossesOf t := by
        simp only [lossesOf, List.filter_cons]
        rw [if_neg (by simp only [decide_eq_true_eq, not_lt]; exact le_of_lt hgt)]
      rw [hw, hl, List.length_cons, List.length_cons]
      omega

lemma loss_rate_eq_compl (ps : List Position) (hne : ps ≠ [])
    (h : ∀ p ∈ ps, p.profit_loss ≠ 0) :
    loss_rate ps = 100 - win_rate ps := by
  have hlen : (0:ℚ) < (ps.length : ℚ) := by
    exact_mod_cast List.length_pos.mpr hne
  have hsum : ((winsOf ps).length : ℚ) + ((lossesOf ps).length : ℚ) = (ps.length : ℚ) := by
    exact_mod_cast wins_losses_length ps h
  have hpos : 0 < ps.length := List.length_pos.mpr hne
  rw [loss_rate, win_rate, if_pos hpos, if_pos hpos]
  have hn : (ps.length : ℚ) ≠ 0 := ne_of_gt hlen
  field_simp
  linarith

lemma symbolSub_ne_nil (ps : List Position) (s : String)
    (hs : s ∈ (ps.map (fun p => p.symbol)).dedup) : symbolSub ps s ≠ [] := by
  rw [List.mem_dedup] at hs
  obtain ⟨p, hp, hps⟩ := List.mem_map.mp hs
  intro hnil
  have hmem : p ∈ symbolSub ps s := by
    rw [symbolSub, List.mem_filter]
    exact ⟨hp, by simp [hps]⟩
  rw [hnil] at hmem
  cases hmem

/-- Claim C4 (corrected): the per-symbol breakdown is sorted by descending
(rounded) expectancy, and each per-symbol expectancy uses loss rate
`100 − win_rate` — counting break-even positions as losses — which coincides with
the overall trade-expectancy formula (loss rate = losing count / total × 100)
scoped to the symbol exactly when the symbol has no zero-P&L positions.  The
frozen claim that the two formulas always agree fails on break-even positions. -/
theorem claim_c4_symbol_expectancy :
    ∀ ps : List Position,
      List.Sorted (fun a b : SymbolStat => b.expectancy ≤ a.expectancy)
        (symbol_breakdown ps) ∧
      ∀ s ∈ (ps.map (fun p => p.symbol)).dedup,
        (∀ p ∈ symbolSub ps s, p.profit_loss ≠ 0) →
        (symbol_stat ps s).expectancy = roundTo 2 (trade_expectancy_raw (symbolSub ps s)) := by
  intro ps
  constructor
  · exact sorted_sortByExpDesc _
  · intro s hs h
    have hne := symbolSub_ne_nil ps s hs
    show roundTo 2 (win_rate (symbolSub ps s) / 100 * avg_win (symbolSub ps s) -
      (100 - win_rate (symbolSub ps s)) / 100 * |avg_loss (symbolSub ps s)|) =
      roundTo 2 (trade_expectancy_raw (symbolSub ps s))
    rw [trade_expectancy_raw, loss_rate_eq_compl _ hne h]

/-- Witness for C4: two positions (+100, −50) on one symbol, no break-evens. -/
theorem claim_c4_witness :
    "A" ∈ (([⟨1, "A", "BUY", none, none, 0, 0, 1, 100, 0⟩,
             ⟨2, "A", "BUY", none, none, 0, 0, 1, -50, 0⟩] : List Position).map
      (fun p => p.symbol)).dedup ∧
    (∀ p ∈ symbolSub [⟨1, "A", "BUY", none, none, 0, 0, 1, 100, 0⟩,
             ⟨2, "A", "BUY", none, none, 0, 0, 1, -50, 0⟩] "A", p.profit_loss ≠ 0) ∧
    (symbol_stat [⟨1, "A", "BUY", none, none, 0, 0, 1, 100, 0⟩,
             ⟨2, "A", "BUY", none, none, 0, 0, 1, -50, 0⟩] "A").expectancy =
      roundTo 2 (trade_expectancy_raw
        (symbolSub [⟨1, "A", "BUY", none, none, 0, 0, 1, 100, 0⟩,
             ⟨2, "A", "BUY", none, none, 0, 0, 1, -50, 0⟩] "A")) := by
  have h1 : "A" ∈ (([⟨1, "A", "BUY", none, none, 0, 0, 1, 100, 0⟩,
             ⟨2, "A", "BUY", none, none, 0, 0, 1, -50, 0⟩] : List Position).map
      (fun p => p.symbol)).dedup := by
    simp
  have h2 : ∀ p ∈ symbolSub [⟨1, "A", "BUY", none, none, 0, 0, 1, 100, 0⟩,
             ⟨2, "A", "BUY", none, none, 0, 0, 1, -50, 0⟩] "A", p.profit_loss ≠ 0 := by
    norm_num [symbolSub, List.filter]
  exact ⟨h1, h2, (claim_c4_symbol_expectancy _).2 "A" h1 h2⟩

/-- Counterexample for C4 as frozen: positions (+100, −50, 0) on one symbol; the
code's per-symbol expectancy is 0 (break-even counted as a loss via
`100 − win_rate`), while the claimed formula (loss rate = losing count / total)
yields 16.67. -/
theorem claim_c4_counterexample :
    (symbol_stat [⟨1, "A", "BUY", none, none, 0, 0, 1, 100, 0⟩,
       ⟨2, "A", "BUY", none, none, 0, 0, 1, -50, 0⟩,
       ⟨3, "A", "BUY", none, none, 0, 0, 1, 0, 0⟩] "A").expectancy = 0 ∧
    roundTo 2 (trade_expectancy_raw
      (symbolSub [⟨1, "A", "BUY", none, none, 0, 0, 1, 100, 0⟩,
        ⟨2, "A", "BUY", none, none, 0, 0, 1, -50, 0⟩,
        ⟨3, "A", "BUY", none, none, 0, 0, 1, 0, 0⟩] "A")) = 1667/100 ∧
    (0:ℚ) ≠ 1667/100 := by
  refine ⟨?_, ?_, by norm_num⟩
  · norm_num [symbol_stat, symbolSub, win_rate, winsOf, lossesOf, avg_win, avg_loss,
      meanOf, roundTo, roundHalfEven, List.filter]
  · norm_num [trade_expectancy_raw, symbolSub, win_rate, loss_rate, winsOf, lossesOf,
      avg_win, avg_loss, meanOf, roundTo, roundHalfEven, List.filter]

-- ── Claim C9 ─────────────────────────────────────────────────────────────────

lemma omin_left_comm (a b : ℤ) (c : Option ℤ) : omin a (omin b c) = omin b (omin a c) := by
  cases c with
  | none => simp [omin, min_comm]
  | some y => simp [omin, min_left_comm]

lemma omax_left_comm (a b : ℤ) (c : Option ℤ) : omax a (omax b c) = omax b (omax a c) := by
  cases c with
  | none => simp [omax, max_comm]
  | some y => simp [omax, max_left_comm]

instance : LeftCommutative omin := ⟨omin_left_comm⟩

instance : LeftCommutative omax := ⟨omax_left_comm⟩

lemma minTime_perm (ts₁ ts₂ : List ℤ) (h : List.Perm ts₁ ts₂) : minTime ts₁ = minTime ts₂ :=
  h.foldr_eq none

lemma maxTime_perm (ts₁ ts₂ : List ℤ) (h : List.Perm ts₁ ts₂) : maxTime ts₁ = maxTime ts₂ :=
  h.foldr_eq none

lemma head_fields_eq (l₁ l₂ : List Deal) (h : List.Perm l₁ l₂)
    (hall : ∀ d ∈ l₁, ∀ d' ∈ l₁, d.symbol = d'.symbol ∧ d.action = d'.action) :
    (l₁.head?.map (fun d => d.symbol)).getD "" = (l₂.head?.map (fun d => d.symbol)).getD "" ∧
    (l₁.head?.map (fun d => d.action)).getD "" = (l₂.head?.map (fun d => d.action)).getD "" := by
  cases l₁ with
  | nil =>
    rw [← h.nil_eq]
    exact ⟨rfl, rfl⟩
  | cons a t =>
    cases l₂ with
    | nil => exact absurd h.eq_nil (List.cons_ne_nil a t)
    | cons b t₂ =>
      have hb : b ∈ a :: t := h.mem_iff.mpr (List.mem_cons_self b t₂)
      have hab := hall a (List.mem_cons_self a t) b hb
      exact ⟨hab.1, hab.2⟩

lemma mkPosition_perm (pid : ℕ) (os₁ os₂ cs₁ cs₂ : List Deal)
    (ho : List.Perm os₁ os₂) (hc : List.Perm cs₁ cs₂)
    (hall : ∀ d ∈ os₁, ∀ d' ∈ os₁, d.symbol = d'.symbol ∧ d.action = d'.action) :
    mkPosition pid os₁ cs₁ = mkPosition pid os₂ cs₂ := by
  have hvol : (os₁.map (fun d => d.volume)).sum = (os₂.map (fun d => d.volume)).sum :=
    (ho.map _).sum_eq
  have hpv : (os₁.map (fun d => d.price * d.volume)).sum =
      (os₂.map (fun d => d.price * d.volume)).sum := (ho.map _).sum_eq
  have hcpv : (cs₁.map (fun d => d.price * d.volume)).sum =
      (cs₂.map (fun d => d.price * d.volume)).sum := (hc.map _).sum_eq
  have hnp₁ : (os₁.map (fun d => d.net_profit)).sum = (os₂.map (fun d => d.net_profit)).sum :=
    (ho.map _).sum_eq
  have hnp₂ : (cs₁.map (fun d => d.net_profit)).sum = (cs₂.map (fun d => d.net_profit)).sum :=
    (hc.map _).sum_eq
  have ht₁ : minTime (os₁.map (fun d => d.time)) = minTime (os₂.map (fun d => d.time)) :=
    minTime_perm _ _ (ho.map _)
  have ht₂ : maxTime (cs₁.map (fun d => d.time)) = maxTime (cs₂.map (fun d => d.time)) :=
    maxTime_perm _ _ (hc.map _)
  have hhead := head_fields_eq os₁ os₂ ho hall
  simp only [mkPosition]
  rw [hvol, hpv, hcpv, hnp₁, hnp₂, ht₁, ht₂, hhead.1, hhead.2]

lemma completedIds_perm (l₁ l₂ : List Deal) (h : List.Perm l₁ l₂) :
    List.Perm (completedIds l₁) (completedIds l₂) := by
  unfold completedIds
  have hop : List.Perm (((openDeals l₁).map (fun d => d.position_id)).dedup)
      (((openDeals l₂).map (fun d => d.position_id)).dedup) :=
    ((h.filter _).map _).dedup
  have hcl : ∀ pid : ℕ,
      (((closeDeals l₁).map (fun d => d.position_id)).contains pid) =
      (((closeDeals l₂).map (fun d => d.position_id)).contains pid) := by
    intro pid
    have hmem : pid ∈ (closeDeals l₁).map (fun d => d.position_id) ↔
        pid ∈ (closeDeals l₂).map (fun d => d.position_id) := ((h.filter _).map _).mem_iff
    simp only [List.contains, List.elem_eq_mem]
    exact decide_eq_decide.mpr hmem
  have step1 := hop.filter
    (fun pid => ((closeDeals l₁).map (fun d => d.position_id)).contains pid)
  have step2 : (((openDeals l₂).map (fun d => d.position_id)).dedup).filter
      (fun pid => ((closeDeals l₁).map (fun d => d.position_id)).contains pid) =
      (((openDeals l₂).map (fun d => d.position_id)).dedup).filter
      (fun pid => ((closeDeals l₂).map (fun d => d.position_id)).contains pid) :=
    List.filter_congr (fun x _ => hcl x)
  rw [step2] at step1
  exact step1

lemma mem_posOpens (l : List Deal) (pid : ℕ) (d : Deal) (h : d ∈ posOpens l pid) :
    d ∈ l ∧ d.entry_exit = "OPEN" ∧ d.position_id = pid := by
  rw [posOpens, List.mem_filter] at h
  obtain ⟨h1, h2⟩ := h
  rw [openDeals, List.mem_filter] at h1
  refine ⟨h1.1, ?_, ?_⟩
  · have := h1.2
    simpa using this
  · simpa using h2

lemma isEmpty_eq_of_perm {α : Type} (l₁ l₂ : List α) (h : List.Perm l₁ l₂) :
    l₁.isEmpty = l₂.isEmpty := by
  cases he : l₂.isEmpty with
  | true =>
    rw [List.isEmpty_eq_true] at he ⊢
    rw [he] at h
    exact h.eq_nil
  | false =>
    rw [List.isEmpty_eq_false] at he ⊢
    intro hnil
    rw [hnil] at h
    exact he h.nil_eq.symm

def numericPart (p : Position) : ℕ × Option ℤ × Option ℤ × ℚ × ℚ × ℚ × ℚ × ℚ :=
  (p.position_id, p.entry_time, p.exit_time, p.entry_price, p.exit_price, p.volume,
    p.profit_loss, p.hold_time_minutes)

lemma mkPosition_perm_numeric (pid : ℕ) (os₁ os₂ cs₁ cs₂ : List Deal)
    (ho : List.Perm os₁ os₂) (hc : List.Perm cs₁ cs₂) :
    numericPart (mkPosition pid os₁ cs₁) = numericPart (mkPosition pid os₂ cs₂) := by
  have hvol : (os₁.map (fun d => d.volume)).sum = (os₂.map (fun d => d.volume)).sum :=
    (ho.map _).sum_eq
  have hpv : (os₁.map (fun d => d.price * d.volume)).sum =
      (os₂.map (fun d => d.price * d.volume)).sum := (ho.map _).sum_eq
  have hcpv : (cs₁.map (fun d => d.price * d.volume)).sum =
      (cs₂.map (fun d => d.price * d.volume)).sum := (hc.map _).sum_eq
  have hnp₁ : (os₁.map (fun d => d.net_profit)).sum = (os₂.map (fun d => d.net_profit)).sum :=
    (ho.map _).sum_eq
  have hnp₂ : (cs₁.map (fun d => d.net_profit)).sum = (cs₂.map (fun d => d.net_profit)).sum :=
    (hc.map _).sum_eq
  have ht₁ : minTime (os₁.map (fun d => d.time)) = minTime (os₂.map (fun d => d.time)) :=
    minTime_perm _ _ (ho.map _)
  have ht₂ : maxTime (cs₁.map (fun d => d.time)) = maxTime (cs₂.map (fun d => d.time)) :=
    maxTime_perm _ _ (hc.map _)
  simp only [mkPosition, numericPart]
  rw [hvol, hpv, hcpv, hnp₁, hnp₂, ht₁, ht₂]

/-- Claim C9 (corrected): deal-to-position reconstruction is permutation
invariant in two senses.  Unconditionally, for any two orderings of the same
deal records the reconstructed positions agree as a multiset once projected to
their numeric content (position id, entry/exit time, entry/exit price, volume,
profit_loss, hold time).  With symbol and action included, the same holds
PROVIDED all open deals sharing a position id carry the same symbol and action
(as MT5 data does).  Without that proviso the frozen claim fails:
`symbol`/`action` are read from the first open fill in input order, which is
order sensitive. -/
theorem claim_c9_order_invariance :
    ∀ l₁ l₂ : List Deal, List.Perm l₁ l₂ →
      List.Perm ((process_deals_to_positions l₁).map numericPart)
        ((process_deals_to_positions l₂).map numericPart) ∧
      ((∀ d ∈ l₁, ∀ d' ∈ l₁, d.entry_exit = "OPEN" → d'.entry_exit = "OPEN" →
          d.position_id = d'.position_id → d.symbol = d'.symbol ∧ d.action = d'.action) →
        List.Perm (process_deals_to_positions l₁) (process_deals_to_positions l₂)) := by
  intro l₁ l₂ h
  constructor
  · have hnum : ∀ pid : ℕ,
        (Option.map numericPart
          (if (posOpens l₁ pid).isEmpty || (posCloses l₁ pid).isEmpty then none
            else some (mkPosition pid (posOpens l₁ pid) (posCloses l₁ pid)))) =
        (Option.map numericPart
          (if (posOpens l₂ pid).isEmpty || (posCloses l₂ pid).isEmpty then none
            else some (mkPosition pid (posOpens l₂ pid) (posCloses l₂ pid)))) := by
      intro pid
      have hpo : List.Perm (posOpens l₁ pid) (posOpens l₂ pid) := (h.filter _).filter _
      have hpc : List.Perm (posCloses l₁ pid) (posCloses l₂ pid) := (h.filter _).filter _
      rw [isEmpty_eq_of_perm _ _ hpo, isEmpty_eq_of_perm _ _ hpc]
      by_cases hempty : ((posOpens l₂ pid).isEmpty || (posCloses l₂ pid).isEmpty) = true
      · rw [if_pos hempty, if_pos hempty]
      · rw [if_neg hempty, if_neg hempty]
        show some (numericPart (mkPosition pid (posOpens l₁ pid) (posCloses l₁ pid))) =
          some (numericPart (mkPosition pid (posOpens l₂ pid) (posCloses l₂ pid)))
        rw [mkPosition_perm_numeric pid _ _ _ _ hpo hpc]
    show List.Perm
      (((completedIds l₁).filterMap (fun pid =>
        if (posOpens l₁ pid).isEmpty || (posCloses l₁ pid).isEmpty then none
        else some (mkPosition pid (posOpens l₁ pid) (posCloses l₁ pid)))).map numericPart)
      (((completedIds l₂).filterMap (fun pid =>
        if (posOpens l₂ pid).isEmpty || (posCloses l₂ pid).isEmpty then none
        else some (mkPosition pid (posOpens l₂ pid) (posCloses l₂ pid)))).map numericPart)
    rw [List.map_filterMap, List.map_filterMap,
      List.filterMap_congr (fun x _ => hnum x)]
    exact (completedIds_perm l₁ l₂ h).filterMap _
  · intro hall
    have hfun : ∀ pid : ℕ,
        (if (posOpens l₁ pid).isEmpty || (posCloses l₁ pid).isEmpty then none
          else some (mkPosition pid (posOpens l₁ pid) (posCloses l₁ pid))) =
        (if (posOpens l₂ pid).isEmpty || (posCloses l₂ pid).isEmpty then none
          else some (mkPosition pid (posOpens l₂ pid) (posCloses l₂ pid))) := by
      intro pid
      have hpo : List.Perm (posOpens l₁ pid) (posOpens l₂ pid) := (h.filter _).filter _
      have hpc : List.Perm (posCloses l₁ pid) (posCloses l₂ pid) := (h.filter _).filter _
      rw [isEmpty_eq_of_perm _ _ hpo, isEmpty_eq_of_perm _ _ hpc]
      by_cases hempty : ((posOpens l₂ pid).isEmpty || (posCloses l₂ pid).isEmpty) = true
      · rw [if_pos hempty, if_pos hempty]
      · rw [if_neg hempty, if_neg hempty, Option.some_inj]
        refine mkPosition_perm pid _ _ _ _ hpo hpc ?_
        intro d hd d' hd'
        obtain ⟨hdl, hdo, hdp⟩ := mem_posOpens l₁ pid d hd
        obtain ⟨hdl', hdo', hdp'⟩ := mem_posOpens l₁ pid d' hd'
        exact hall d hdl d' hdl' hdo hdo' (by rw [hdp, hdp'])
    show List.Perm
      ((completedIds l₁).filterMap (fun pid =>
        if (posOpens l₁ pid).isEmpty || (posCloses l₁ pid).isEmpty then none
        else some (mkPosition pid (posOpens l₁ pid) (posCloses l₁ pid))))
      ((completedIds l₂).filterMap (fun pid =>
        if (posOpens l₂ pid).isEmpty || (posCloses l₂ pid).isEmpty then none
        else some (mkPosition pid (posOpens l₂ pid) (posCloses l₂ pid))))
    rw [List.filterMap_congr (fun x _ => hfun x)]
    exact (completedIds_perm l₁ l₂ h).filterMap _

/-- Witness for C9: permuting the two open fills of a coherent position leaves
the reconstructed positions a permutation of each other. -/
theorem claim_c9_witness :
    List.Perm
      ([⟨1, "OPEN", "BUY", "EURUSD", 100, 1, 0, 10⟩,
        ⟨1, "OPEN", "BUY", "EURUSD", 102, 1, 0, 20⟩,
        ⟨1, "CLOSE", "SELL", "EURUSD", 105, 2, 0, 30⟩] : List Deal)
      [⟨1, "OPEN", "BUY", "EURUSD", 102, 1, 0, 20⟩,
        ⟨1, "OPEN", "BUY", "EURUSD", 100, 1, 0, 10⟩,
        ⟨1, "CLOSE", "SELL", "EURUSD", 105, 2, 0, 30⟩] ∧
    (∀ d ∈ ([⟨1, "OPEN", "BUY", "EURUSD", 100, 1, 0, 10⟩,
        ⟨1, "OPEN", "BUY", "EURUSD", 102, 1, 0, 20⟩,
        ⟨1, "CLOSE", "SELL", "EURUSD", 105, 2, 0, 30⟩] : List Deal),
      ∀ d' ∈ ([⟨1, "OPEN", "BUY", "EURUSD", 100, 1, 0, 10⟩,
        ⟨1, "OPEN", "BUY", "EURUSD", 102, 1, 0, 20⟩,
        ⟨1, "CLOSE", "SELL", "EURUSD", 105, 2, 0, 30⟩] : List Deal),
      d.entry_exit = "OPEN" → d'.entry_exit = "OPEN" →
      d.position_id = d'.position_id → d.symbol = d'.symbol ∧ d.action = d'.action) ∧
    List.Perm
      ((process_deals_to_positions
        [⟨1, "OPEN", "BUY", "EURUSD", 100, 1, 0, 10⟩,
          ⟨1, "OPEN", "BUY", "EURUSD", 102, 1, 0, 20⟩,
          ⟨1, "CLOSE", "SELL", "EURUSD", 105, 2, 0, 30⟩]).map numericPart)
      ((process_deals_to_positions
        [⟨1, "OPEN", "BUY", "EURUSD", 102, 1, 0, 20⟩,
          ⟨1, "OPEN", "BUY", "EURUSD", 100, 1, 0, 10⟩,
          ⟨1, "CLOSE", "SELL", "EURUSD", 105, 2, 0, 30⟩]).map numericPart) ∧
    List.Perm
      (process_deals_to_positions
        [⟨1, "OPEN", "BUY", "EURUSD", 100, 1, 0, 10⟩,
          ⟨1, "OPEN", "BUY", "EURUSD", 102, 1, 0, 20⟩,
          ⟨1, "CLOSE", "SELL", "EURUSD", 105, 2, 0, 30⟩])
      (process_deals_to_positions
        [⟨1, "OPEN", "BUY", "EURUSD", 102, 1, 0, 20⟩,
          ⟨1, "OPEN", "BUY", "EURUSD", 100, 1, 0, 10⟩,
          ⟨1, "CLOSE", "SELL", "EURUSD", 105, 2, 0, 30⟩]) := by
  have hperm : List.Perm
      ([⟨1, "OPEN", "BUY", "EURUSD", 100, 1, 0, 10⟩,
        ⟨1, "OPEN", "BUY", "EURUSD", 102, 1, 0, 20⟩,
        ⟨1, "CLOSE", "SELL", "EURUSD", 105, 2, 0, 30⟩] : List Deal)
      [⟨1, "OPEN", "BUY", "EURUSD", 102, 1, 0, 20⟩,
        ⟨1, "OPEN", "BUY", "EURUSD", 100, 1, 0, 10⟩,
        ⟨1, "CLOSE", "SELL", "EURUSD", 105, 2, 0, 30⟩] :=
    List.Perm.swap _ _ _
  have hcoh : ∀ d ∈ ([⟨1, "OPEN", "BUY", "EURUSD", 100, 1, 0, 10⟩,
      ⟨1, "OPEN", "BUY", "EURUSD", 102, 1, 0, 20⟩,
      ⟨1, "CLOSE", "SELL", "EURUSD", 105, 2, 0, 30⟩] : List Deal),
      ∀ d' ∈ ([⟨1, "OPEN", "BUY", "EURUSD", 100, 1, 0, 10⟩,
        ⟨1, "OPEN", "BUY", "EURUSD", 102, 1, 0, 20⟩,
        ⟨1, "CLOSE", "SELL", "EURUSD", 105, 2, 0, 30⟩] : List Deal),
      d.entry_exit = "OPEN" → d'.entry_exit = "OPEN" →
      d.position_id = d'.position_id → d.symbol = d'.symbol ∧ d.action = d'.action := by
    intro d hd d' hd'
    simp only [List.mem_cons, List.not_mem_nil, or_false] at hd hd'
    rcases hd with rfl | rfl | rfl <;> rcases hd' with rfl | rfl | rfl <;>
      first
        | exact fun _ _ _ => ⟨rfl, rfl⟩
        | exact fun h1 h2 h3 => absurd h1 (by decide)
        | exact fun h1 h2 h3 => absurd h2 (by decide)
  exact ⟨hperm, hcoh, (claim_c9_order_invariance _ _ hperm).1,
    (claim_c9_order_invariance _ _ hperm).2 hcoh⟩

/-- Counterexample for C9 as frozen: two open fills of one position with
different symbols; swapping them changes the reconstructed position's symbol
(taken from the first open fill), so the outputs are not the same set. -/
theorem claim_c9_counterexample :
    List.Perm
      ([⟨1, "OPEN", "BUY", "AAA", 100, 1, 0, 10⟩,
        ⟨1, "OPEN", "BUY", "BBB", 100, 1, 0, 20⟩,
        ⟨1, "CLOSE", "SELL", "AAA", 100, 2, 0, 30⟩] : List Deal)
      [⟨1, "OPEN", "BUY", "BBB", 100, 1, 0, 20⟩,
        ⟨1, "OPEN", "BUY", "AAA", 100, 1, 0, 10⟩,
        ⟨1, "CLOSE", "SELL", "AAA", 100, 2, 0, 30⟩] ∧
    (process_deals_to_positions
      [⟨1, "OPEN", "BUY", "AAA", 100, 1, 0, 10⟩,
        ⟨1, "OPEN", "BUY", "BBB", 100, 1, 0, 20⟩,
        ⟨1, "CLOSE", "SELL", "AAA", 100, 2, 0, 30⟩]).map (fun p => p.symbol) = ["AAA"] ∧
    (process_deals_to_positions
      [⟨1, "OPEN", "BUY", "BBB", 100, 1, 0, 20⟩,
        ⟨1, "OPEN", "BUY", "AAA", 100, 1, 0, 10⟩,
        ⟨1, "CLOSE", "SELL", "AAA", 100, 2, 0, 30⟩]).map (fun p => p.symbol) = ["BBB"] ∧
    ¬ List.Perm
      (process_deals_to_positions
        [⟨1, "OPEN", "BUY", "AAA", 100, 1, 0, 10⟩,
          ⟨1, "OPEN", "BUY", "BBB", 100, 1, 0, 20⟩,
          ⟨1, "CLOSE", "SELL", "AAA", 100, 2, 0, 30⟩])
      (process_deals_to_positions
        [⟨1, "OPEN", "BUY", "BBB", 100, 1, 0, 20⟩,
          ⟨1, "OPEN", "BUY", "AAA", 100, 1, 0, 10⟩,
          ⟨1, "CLOSE", "SELL", "AAA", 100, 2, 0, 30⟩]) := by
  have h1 : (process_deals_to_positions
      [⟨1, "OPEN", "BUY", "AAA", 100, 1, 0, 10⟩,
        ⟨1, "OPEN", "BUY", "BBB", 100, 1, 0, 20⟩,
        ⟨1, "CLOSE", "SELL", "AAA", 100, 2, 0, 30⟩]).map (fun p => p.symbol) = ["AAA"] := by
    norm_num [process_deals_to_positions, completedIds, posOpens, posCloses, openDeals,
      closeDeals, mkPosition, minTime, maxTime, omin, omax, List.filter, List.dedup,
      List.filterMap]
  have h2 : (process_deals_to_positions
      [⟨1, "OPEN", "BUY", "BBB", 100, 1, 0, 20⟩,
        ⟨1, "OPEN", "BUY", "AAA", 100, 1, 0, 10⟩,
        ⟨1, "CLOSE", "SELL", "AAA", 100, 2, 0, 30⟩]).map (fun p => p.symbol) = ["BBB"] := by
    norm_num [process_deals_to_positions, completedIds, posOpens, posCloses, openDeals,
      closeDeals, mkPosition, minTime, maxTime, omin, omax, List.filter, List.dedup,
      List.filterMap]
  refine ⟨List.Perm.swap _ _ _, h1, h2, fun hperm => ?_⟩
  have hmap := hperm.map (fun p => p.symbol)
  rw [h1, h2] at hmap
  exact absurd (List.singleton_perm_singleton.mp hmap) (by decide)
